import Mathlib

/-
Verification of the WorkBot work-scheduling core (wtsi-npg/workbot).

This file gives a shallow embedding, in Lean 4, of the parts of the
repository that the specification claims talk about:

* `workbot/irods.py`   — the `AVU` ordering (`AVU.__lt__`), the add-if-absent
  metadata operation (`RodsItem.meta_add`) and the existence predicate
  (`RodsItem.exists`);
* `workbot/schema.py`  — the `WorkInstance` state-transition methods and
  `initialize_states` of the revision present in the source tree;
* `workbot/enums.py`   — the `WorkState` enumeration;
* `workbot/base.py`    — the step decorators (`stage_op`, `analyse_op`,
  `archive_op`, `annotate_op`, `unstage_op`, `complete_op`, `cancel_op`),
  `WorkBot.find_work`, `WorkBot.add_work`, `WorkBot.stage_input_data`,
  `WorkBot.cancel_analysis`;
* `workbot/ont.py`     — the broker loop `ONTWorkBroker.__add_work_for_run(s)`.

Python strings are modelled as lists of characters (`PyStr`); Python's
string `<` is the lexicographic order on code points, which is Mathlib's
`List.Lex (· < ·)` order on `List Char`.  Python `None`-able values are
`Option`s.  Exceptions are `Except` results or explicit `Option` error
components.  Database rows are lists of records in the order of insertion.
-/

namespace Workbot

/-- A Python string: a list of characters, compared lexicographically by
code point (Mathlib's order on `List Char` is exactly `List.Lex (· < ·)`,
which matches Python's string comparison). -/
abbrev PyStr := List Char

/-! ### `workbot/irods.py`: the AVU class

`AVU` (irods.py lines 139-316) holds `_namespace : Option`,
`_attribute`, `_value` and `_units : Option`.  The `attribute` property
(irods.py lines 243-249) folds a namespace into the attribute as
`namespace : attribute` using `AVU.SEPARATOR = ":"`.  Field names here:
`ns` for `_namespace`, `attr` for `_attribute` (the bare attribute,
`without_namespace`). -/

structure AVU where
  ns : Option PyStr
  attr : PyStr
  value : PyStr
  units : Option PyStr
deriving DecidableEq, Repr

/-- The `attribute` property of `AVU` (irods.py lines 243-249): the
namespace, when present, is folded in as `"{ns}:{attr}"`. -/
def AVU.attrFull (a : AVU) : PyStr :=
  match a.ns with
  | some n => n ++ (':' :: a.attr)
  | none => a.attr

/-- The trailing part of `AVU.__lt__` (irods.py lines 290-306): executed
when the two namespaces compare equal.  Compares the full `attribute`
property, then `value`, then `units`, where a present (`some`) units
sorts before an absent (`none`) one. -/
def avuLtTail (x y : AVU) : Bool :=
  if x.attrFull < y.attrFull then true
  else if x.attrFull = y.attrFull then
    if x.value < y.value then true
    else if x.value = y.value then
      match x.units, y.units with
      | some _, none => true
      | none, some _ => false
      | none, none => false
      | some ux, some uy => decide (ux < uy)
    else false
  else false

/-- `AVU.__lt__` (irods.py lines 280-308), translated clause by clause:
a present namespace sorts before an absent one; two present namespaces
compare lexically; when the namespaces are equal the comparison falls
through to the attribute/value/units block; every other case returns
`False`. -/
def avuLt (x y : AVU) : Bool :=
  match x.ns, y.ns with
  | some _, none => true
  | none, some _ => false
  | some nx, some ny =>
    if nx < ny then true
    else if nx = ny then avuLtTail x y else false
  | none, none => avuLtTail x y

/-- Sort key for an optional string component under the order the code
implements: a present value is keyed `(0, s)` and an absent one `(1, [])`,
so present sorts strictly before absent and two present values compare
lexically. -/
def optKey (o : Option PyStr) : ℕ ×ₗ PyStr :=
  toLex (match o with
  | some s => (0, s)
  | none => (1, []))

/-- The specification-level sort key of a tag: lexicographic by
(namespace, bare attribute, value, units), optional components ordered
with present-before-absent.  This is the order stated by spec §4.6 with
the null placement corrected, phrased over the bare attribute (the spec's
"attribute"), not the namespace-qualified string the code compares. -/
def specKey (a : AVU) : (ℕ ×ₗ PyStr) ×ₗ (PyStr ×ₗ (PyStr ×ₗ (ℕ ×ₗ PyStr))) :=
  toLex (optKey a.ns, toLex (a.attr, toLex (a.value, optKey a.units)))

/-- Sorting a Python list of AVUs with `list.sort()` / `sorted()`: a
stable merge sort driven by `__lt__`, i.e. element `a` may precede `b`
whenever `¬ (b < a)`. -/
def sortAVUs (l : List AVU) : List AVU :=
  l.mergeSort (fun a b => !avuLt b a)

/-! ### `workbot/irods.py`: metadata identity and `meta_add`

Python `AVU.__eq__`/`__hash__` (irods.py lines 269-278) identify a tag by
the triple (full `attribute` property, `value`, `units`) — the namespace
enters only through the folded attribute.  A Python `set` of AVUs is
therefore a finite set of such triples. -/

structure Tag where
  attr : PyStr
  value : PyStr
  units : Option PyStr
deriving DecidableEq

/-- `RodsItem.meta_add` (irods.py lines 572-590): reads the item's current
metadata, computes `to_add = set(avus).difference(current)`, sends only
`to_add` to the server (which attaches them), and returns `len(to_add)`.
Result: the item's new metadata set and the returned count. -/
def metaAdd (current tags : Finset Tag) : Finset Tag × ℕ :=
  let toAdd := tags \ current
  (current ∪ toAdd, toAdd.card)

/-! ### `workbot/irods.py`: the `exists` predicate -/

/-- `RodsError` (irods.py lines 49-66): an iRODS server error with a
message and a numeric code. -/
structure RodsErr where
  message : String
  code : Int
deriving DecidableEq

/-- `RodsItem.exists` (irods.py lines 563-570): call `self._list()`; on a
`RodsError` with code `-310000` return `False`; on a `RodsError` with any
other code fall through (the exception is swallowed) and return `True`;
on success return `True`.  The argument is the outcome of the `_list`
call. -/
def existsResult (r : Except RodsErr Unit) : Bool :=
  match r with
  | .error re => if re.code = -310000 then false else true
  | .ok _ => true

/-! ### `workbot/enums.py`: the `WorkState` enumeration

`WorkState` (enums.py lines 30-44) has exactly these ten members; a
member's wire name is its identifier. -/

inductive WorkState where
  | PENDING
  | STAGED
  | STARTED
  | SUCCEEDED
  | ARCHIVED
  | ANNOTATED
  | UNSTAGED
  | COMPLETED
  | FAILED
  | CANCELLED
deriving DecidableEq, Repr, Fintype

/-- The members of `WorkState` in declaration order (enums.py
lines 30-44). -/
def workStateMembers : List WorkState :=
  [.PENDING, .STAGED, .STARTED, .SUCCEEDED, .ARCHIVED,
   .ANNOTATED, .UNSTAGED, .COMPLETED, .FAILED, .CANCELLED]

/-- Modelled from the spec: the current revision of `workbot/schema.py` —
the one whose `WorkInstance` has the predicates `is_pending` … and the
transition methods `staged`, `started`, `succeeded`, `failed`, `archived`,
`annotated`, `unstaged`, `completed`, `cancelled` called by
`workbot/base.py` and exercised by `tests/test_schema.py` — is not in the
source tree (the `schema.py` present is an earlier revision).  Its
transition table is modelled from spec §4.1: each row lists the moves the
corresponding method permits; every other requested move raises
`StateTransitionError`. -/
def legalTransition : WorkState → WorkState → Bool
  | .PENDING, .STAGED => true
  | .PENDING, .CANCELLED => true
  | .STAGED, .STARTED => true
  | .STAGED, .UNSTAGED => true
  | .STAGED, .CANCELLED => true
  | .STARTED, .SUCCEEDED => true
  | .STARTED, .FAILED => true
  | .STARTED, .CANCELLED => true
  | .SUCCEEDED, .ARCHIVED => true
  | .SUCCEEDED, .CANCELLED => true
  | .ARCHIVED, .ANNOTATED => true
  | .ARCHIVED, .CANCELLED => true
  | .ANNOTATED, .UNSTAGED => true
  | .ANNOTATED, .CANCELLED => true
  | .UNSTAGED, .COMPLETED => true
  | .UNSTAGED, .CANCELLED => true
  | .FAILED, .CANCELLED => true
  | _, _ => false

/-- Python exceptions that flow through the pipeline steps.
`analysisError` is `AnalysisError` (base.py lines 48-50), the one kind
the analyse step recognises; `rodsError` is `RodsError` (irods.py);
`stateTransitionError` is `StateTransitionError`; `otherError` stands
for any other exception class. -/
inductive PyErr where
  | analysisError
  | rodsError (code : Int)
  | stateTransitionError (src dst : WorkState)
  | otherError
deriving DecidableEq, Repr

/-- Modelled from the spec: `WorkInstance.update_state` guarded by the
transition table of the missing current `schema.py` revision — commit the
requested move when the table allows it, raise `StateTransitionError`
otherwise. -/
def updateState (s dst : WorkState) : Except PyErr WorkState :=
  if legalTransition s dst then .ok dst
  else .error (.stateTransitionError s dst)

/-! ### `workbot/base.py`: the step decorators

Each decorator (base.py lines 67-178) guards on the current state,
runs the body, then commits the post-state transition.  A step is a
function from the committed job state to the committed job state after
the call, paired with the exception the call propagates (if any); the
body's outcome is passed in as a value, since the bodies perform external
I/O.  The five decorators `stage_op`, `archive_op`, `annotate_op`,
`unstage_op` and `complete_op` share one shape, embedded once as
`simpleOp` and instantiated with each decorator's (guard state,
post state) pair. -/

/-- The shared shape of `stage_op` (base.py 67-79), `archive_op`
(107-119), `annotate_op` (122-134), `unstage_op` (137-149) and
`complete_op` (152-164): if the job is in `pre`, run the body and — only
if the body returned — commit the transition to `post`; if the job is not
in `pre`, skip silently.  A body exception escapes before the transition
is reached, leaving the committed state unchanged. -/
def simpleOp (pre post : WorkState) (body : Except PyErr Unit) (s : WorkState) :
    WorkState × Option PyErr :=
  if s = pre then
    match body with
    | .ok _ =>
      match updateState s post with
      | .ok s₁ => (s₁, none)
      | .error e => (s, some e)
    | .error e => (s, some e)
  else (s, none)

/-- `analyse_op` (base.py lines 82-104): if the job is `STAGED`, commit
`STARTED` first, then run the body; on success commit `SUCCEEDED`; on
`AnalysisError` commit `FAILED` and re-raise; any other exception is not
caught and escapes with the job left in the committed `STARTED` state. -/
def analyseOp (body : Except PyErr Unit) (s : WorkState) :
    WorkState × Option PyErr :=
  if s = .STAGED then
    match updateState s .STARTED with
    | .error e => (s, some e)
    | .ok s₁ =>
      match body with
      | .ok _ =>
        match updateState s₁ .SUCCEEDED with
        | .ok s₂ => (s₂, none)
        | .error e => (s₁, some e)
      | .error e =>
        if e = .analysisError then
          match updateState s₁ .FAILED with
          | .ok s₂ => (s₂, some e)
          | .error e' => (s₁, some e')
        else (s₁, some e)
  else (s, none)

/-! ### `workbot/base.py`: `stage_input_data` (lines 512-548)

The body checks `is_input_data_complete` (for ONT run data,
`ONTRodsHandler.is_input_data_complete`, ont.py lines 198-228: the input
collection exists and lists a child matching `final_report.txt.gz`); only
when complete does it download the collection into the staging directory
and move it to `.../input`.  The world records that check's outcome and
whether the input tree is present locally.  The download is modelled as
succeeding; a `RodsError` raised by the transfer is covered by the
generic step lemma for `simpleOp`, since `stage_op` re-raises it before
any transition. -/

structure StageWorld where
  inputComplete : Bool
  downloaded : Bool
deriving DecidableEq, Repr

/-- `stage_op` applied to `WorkBot.stage_input_data` (base.py lines 67-79
and 512-548): if the job is `PENDING`, run the body — which downloads
only when the input data are complete — and then, in every case where the
body returned, commit the `STAGED` transition. -/
def stageInputData (s : WorkState) (w : StageWorld) :
    (WorkState × StageWorld) × Option PyErr :=
  if s = .PENDING then
    let w₁ := if w.inputComplete then { w with downloaded := true } else w
    match updateState s .STAGED with
    | .ok s₁ => ((s₁, w₁), none)
    | .error e => ((s, w₁), some e)
  else ((s, w), none)

/-! ### `workbot/base.py`: `unstage_input_data` and `cancel_analysis` -/

/-- `unstage_op` applied to `WorkBot.unstage_input_data` (base.py lines
137-149 and 634-646): only when the job is `ANNOTATED` does the decorator
run the body — `shutil.rmtree(self.staging_path(wi), ignore_errors=True)`,
which deletes the job's scratch directory and never raises — and then
commit the `UNSTAGED` transition.  The boolean is whether the scratch
directory `{stagingRoot}/{jobId}` exists. -/
def unstageInputData (s : WorkState) (scratch : Bool) :
    (WorkState × Bool) × Option PyErr :=
  if s = .ANNOTATED then
    match updateState s .UNSTAGED with
    | .ok s₁ => ((s₁, false), none)
    | .error e => ((s, false), some e)
  else ((s, scratch), none)

/-- `cancel_op` applied to `WorkBot.cancel_analysis` (base.py lines
167-178 and 661-675): the body calls the decorated
`unstage_input_data` when the job is `STAGED` or `ANNOTATED`, and then
the decorator commits the `CANCELLED` transition. -/
def cancelAnalysis (s : WorkState) (scratch : Bool) :
    (WorkState × Bool) × Option PyErr :=
  match (if s = .STAGED ∨ s = .ANNOTATED
         then unstageInputData s scratch
         else ((s, scratch), none)) with
  | ((s₁, sc), none) =>
    match updateState s₁ .CANCELLED with
    | .ok s₂ => ((s₂, sc), none)
    | .error e => ((s₁, sc), some e)
  | ((s₁, sc), some e) => ((s₁, sc), some e)

/-! ### `workbot/base.py`: `find_work` and `add_work`

A `workinstance` row carries its input path, work type and current
state; the table is a list of rows in insertion order. -/

structure Job where
  input_path : PyStr
  work_type : PyStr
  state : WorkState
deriving DecidableEq, Repr

abbrev Store := List Job

/-- The row filter applied by `WorkBot.find_work` (base.py lines
376-407): match on input path and work type; the `states` /`not_states`
filters are applied only when the argument collection is non-empty
(Python truthiness of `if states:` / `if not_states:`). -/
def matchesFilters (workType path : PyStr) (states notStates : List WorkState)
    (j : Job) : Prop :=
  j.input_path = path ∧ j.work_type = workType ∧
  (states = [] ∨ j.state ∈ states) ∧
  (notStates = [] ∨ j.state ∉ notStates)

instance (workType path : PyStr) (states notStates : List WorkState) (j : Job) :
    Decidable (matchesFilters workType path states notStates j) := by
  unfold matchesFilters; infer_instance

/-- `WorkBot.find_work` (base.py lines 376-407). -/
def findWork (store : Store) (workType path : PyStr)
    (states notStates : List WorkState) : List Job :=
  store.filter (fun j => decide (matchesFilters workType path states notStates j))

/-- `WorkBot.add_work` (base.py lines 409-452): raise `AnalysisError` if
any job for this (path, work type) is in one of the bot's `end_states`;
return `None` (no-op) if any job is in a state outside
`{*end_states, CANCELLED, COMPLETED}`; otherwise insert and return a new
`PENDING` job.  `endStates` is the bot's `end_states` attribute —
`[CANCELLED, COMPLETED]` by default (base.py lines 367-369, kept by
`ONTRunDataWorkBot`), `[CANCELLED]` for `ONTRunMetadataWorkBot`
(ont.py line 133). -/
def addWork (endStates : List WorkState) (workType : PyStr) (store : Store)
    (path : PyStr) : Except PyErr (Option Job × Store) :=
  let ended := findWork store workType path endStates []
  if ended.isEmpty then
    let incomplete := findWork store workType path []
      (endStates ++ [.CANCELLED, .COMPLETED])
    if incomplete.isEmpty then
      let wi : Job := ⟨path, workType, .PENDING⟩
      .ok (some wi, store ++ [wi])
    else .ok (none, store)
  else .error .analysisError

/-! ### `workbot/ont.py`: the broker loop

`ONTWorkBroker.request_work` (ont.py lines 245-265) asks the warehouse
for recent (experiment, slot) tuples and hands them to
`__add_work_for_runs`.  For a fixed warehouse and archive, each tuple
resolves, via `meta_query`, to a fixed list of collection paths; the
broker input is therefore the list, per tuple, of the paths found
(`found` in `__add_work_for_run`, ont.py lines 303-353).  The
`add_metadata` call made for each inserted job writes an `ontmeta` row,
which `find_work` never consults, so it is not modelled. -/

/-- `ONTWorkBroker.__add_work_for_run` (ont.py lines 303-353): for each
found path, `add_work`; count the paths for which a job was inserted. -/
def addWorkForRun (es : List WorkState) (wt : PyStr) :
    Store → List PyStr → Except PyErr (ℕ × Store)
  | store, [] => .ok (0, store)
  | store, p :: ps =>
    match addWork es wt store p with
    | .error e => .error e
    | .ok (r, store₁) =>
      match addWorkForRun es wt store₁ ps with
      | .error e => .error e
      | .ok (n, store₂) => .ok ((if r.isSome then 1 else 0) + n, store₂)

/-- `ONTWorkBroker.request_work` / `__add_work_for_runs` (ont.py lines
245-301): sum the per-tuple counts; an exception from any `add_work`
is re-raised and aborts the pass. -/
def requestWork (es : List WorkState) (wt : PyStr) :
    Store → List (List PyStr) → Except PyErr (ℕ × Store)
  | store, [] => .ok (0, store)
  | store, found :: rest =>
    match addWorkForRun es wt store found with
    | .error e => .error e
    | .ok (n, store₁) =>
      match requestWork es wt store₁ rest with
      | .error e => .error e
      | .ok (m, store₂) => .ok (n + m, store₂)

/-- The state of a path after a successful `add_work` pass touched it:
no job for the pair is in an end state (so `add_work` will not raise) and
some job for the pair counts as incomplete work (so `add_work` will
no-op).  Used to prove the broker idempotent. -/
def pathOK (es : List WorkState) (wt : PyStr) (store : Store) (p : PyStr) : Prop :=
  (findWork store wt p es []).isEmpty = true ∧
  (findWork store wt p [] (es ++ [.CANCELLED, .COMPLETED])).isEmpty = false

end Workbot

namespace OldSchema

/-! ### `workbot/schema.py` (the revision present in the source tree)

This `schema.py` predates `base.py`: its `WorkInstance` (schema.py lines
102-294) tracks state as a rank-ordered history of `State` rows and
offers the transition methods below, each guarding on the current state
name and raising `StateTransitionError` (lines 19-31) otherwise. -/

/-- Modelled from the spec: the state-name string constants
(`PENDING_STATE`, `STAGED_STATE`, `FAILED_STAGING_STATE`,
`STARTED_STATE`, `SUCCEEDED_STATE`, `FAILED_STATE`, `CANCELLED_STATE`,
`UNSTAGED_STATE`, `FAILED_UNSTAGING_STATE`, `COMPLETED_STATE`) that
schema.py imports from `workbot.config` come from a `config.py` revision
that is absent from the source tree (the `config.py` present defines no
such constants).  They are modelled as an enumeration of ten distinct
tokens named after the constants; nothing below depends on their string
values, only on their identity and distinctness. -/
inductive StName where
  | PENDING_STATE
  | STAGED_STATE
  | FAILED_STAGING_STATE
  | STARTED_STATE
  | SUCCEEDED_STATE
  | FAILED_STATE
  | CANCELLED_STATE
  | UNSTAGED_STATE
  | FAILED_UNSTAGING_STATE
  | COMPLETED_STATE
deriving DecidableEq, Repr, Fintype

/-- `StateTransitionError` (schema.py lines 19-31): carries the current
state and the requested new state.  A current state of `none` models a
`WorkInstance` whose state history is empty (schema.py's guards that
dereference `self.state().name` on a `None` state would in fact crash
with an `AttributeError`; both outcomes are a raised exception, modelled
uniformly as this error). -/
structure TransErr where
  current : Option StName
  new : StName
deriving DecidableEq, Repr

/-- `WorkInstance.pending` (schema.py lines 151-162): only from an empty
state history. -/
def pending : Option StName → Except TransErr StName
  | some n => .error ⟨some n, .PENDING_STATE⟩
  | none => .ok .PENDING_STATE

/-- `WorkInstance.staged` (schema.py lines 164-175): only from
`PENDING_STATE`. -/
def staged (c : Option StName) : Except TransErr StName :=
  if c = some .PENDING_STATE then .ok .STAGED_STATE
  else .error ⟨c, .STAGED_STATE⟩

/-- `WorkInstance.failed_staging` (schema.py lines 177-188): only from
`PENDING_STATE`. -/
def failed_staging (c : Option StName) : Except TransErr StName :=
  if c = some .PENDING_STATE then .ok .FAILED_STAGING_STATE
  else .error ⟨c, .FAILED_STAGING_STATE⟩

/-- `WorkInstance.started` (schema.py lines 190-201): only from
`STAGED_STATE`. -/
def started (c : Option StName) : Except TransErr StName :=
  if c = some .STAGED_STATE then .ok .STARTED_STATE
  else .error ⟨c, .STARTED_STATE⟩

/-- `WorkInstance.succeeded` (schema.py lines 203-214): only from
`STARTED_STATE`. -/
def succeeded (c : Option StName) : Except TransErr StName :=
  if c = some .STARTED_STATE then .ok .SUCCEEDED_STATE
  else .error ⟨c, .SUCCEEDED_STATE⟩

/-- `WorkInstance.failed` (schema.py lines 216-230): only from
`STARTED_STATE`; on an empty history the code raises an error naming
`UNSTAGED_STATE` as the target (a quirk kept here). -/
def failed : Option StName → Except TransErr StName
  | none => .error ⟨none, .UNSTAGED_STATE⟩
  | some n =>
    if n = .STARTED_STATE then .ok .FAILED_STATE
    else .error ⟨some n, .FAILED_STATE⟩

/-- `WorkInstance.cancelled` (schema.py lines 232-240): the method
performs no check at all — "This can be done from any state" — and
commits `CANCELLED_STATE` unconditionally. -/
def cancelled (_ : Option StName) : Except TransErr StName :=
  .ok .CANCELLED_STATE

/-- `WorkInstance.unstaged` (schema.py lines 242-259): from
`STAGED_STATE`, `FAILED_STAGING_STATE`, `SUCCEEDED_STATE`,
`FAILED_STATE` or `FAILED_UNSTAGING_STATE`. -/
def unstaged (c : Option StName) : Except TransErr StName :=
  if c = some .STAGED_STATE ∨ c = some .FAILED_STAGING_STATE ∨
     c = some .SUCCEEDED_STATE ∨ c = some .FAILED_STATE ∨
     c = some .FAILED_UNSTAGING_STATE then .ok .UNSTAGED_STATE
  else .error ⟨c, .UNSTAGED_STATE⟩

/-- `WorkInstance.failed_unstaging` (schema.py lines 261-276): from
`STAGED_STATE`, `SUCCEEDED_STATE` or `FAILED_STATE`. -/
def failed_unstaging (c : Option StName) : Except TransErr StName :=
  if c = some .STAGED_STATE ∨ c = some .SUCCEEDED_STATE ∨
     c = some .FAILED_STATE then .ok .FAILED_UNSTAGING_STATE
  else .error ⟨c, .FAILED_UNSTAGING_STATE⟩

/-- `WorkInstance.completed` (schema.py lines 278-289): the guard is
`if self.state() and self.state().name != UNSTAGED_STATE`, so an empty
history is *not* rejected (a quirk kept here); otherwise only from
`UNSTAGED_STATE`. -/
def completed : Option StName → Except TransErr StName
  | none => .ok .COMPLETED_STATE
  | some n =>
    if n = .UNSTAGED_STATE then .ok .COMPLETED_STATE
    else .error ⟨some n, .COMPLETED_STATE⟩

/-- `initialize_states` (schema.py lines 335-348): the ten `State` rows
seeded at database initialisation, in source order, each with its human
description. -/
def initializeStates : List (StName × String) :=
  [(.PENDING_STATE, "Pending any action"),
   (.STAGED_STATE, "The work data are staged"),
   (.FAILED_STAGING_STATE, "Staging has failed"),
   (.STARTED_STATE, "Work started"),
   (.SUCCEEDED_STATE, "Work was done successfully"),
   (.FAILED_STATE, "Work has failed"),
   (.CANCELLED_STATE, "Work was cancelled"),
   (.UNSTAGED_STATE, "The work data were unstaged"),
   (.FAILED_UNSTAGING_STATE, "Unstaging has failed"),
   (.COMPLETED_STATE, "All actions are complete")]

end OldSchema

open Workbot OldSchema

/-! ## Theorems settling the claims -/

/-- C10: `RodsItem.exists` returns `False` exactly when listing the path
raised a `RodsError` with code `-310000`; a `RodsError` with any other
code is swallowed and the call returns `True` (the result type of
`existsResult` records that no `RodsError` propagates). -/
theorem C10_exists_false_iff_code_minus_310000 (r : Except RodsErr Unit) :
    existsResult r = false ↔ ∃ msg, r = .error ⟨msg, -310000⟩ := by
  cases r with
  | ok u => simp [existsResult]
  | error re =>
    by_cases h : re.code = -310000
    · simp only [existsResult, h, if_pos rfl]
      exact ⟨fun _ => ⟨re.message, by cases re; simp_all⟩, fun _ => rfl⟩
    · simp only [existsResult, if_neg h]
      constructor
      · intro hfalse; cases hfalse
      · rintro ⟨msg, hmsg⟩
        cases hmsg
        simp at h

/-- C7: `meta_add` adds exactly the tags not already present and returns
their number; a second identical call returns 0 and leaves the metadata
equal to the original united with the argument tags. -/
theorem C7_meta_add_idempotent (current tags : Finset Tag) :
    (metaAdd current tags).1 = current ∪ tags ∧
    (metaAdd current tags).2 = (tags \ current).card ∧
    metaAdd (metaAdd current tags).1 tags = (current ∪ tags, 0) := by
  refine ⟨?_, rfl, ?_⟩
  · simp [metaAdd, Finset.union_sdiff_self_eq_union]
  · have h1 : (metaAdd current tags).1 = current ∪ tags := by
      simp [metaAdd, Finset.union_sdiff_self_eq_union]
    rw [h1]
    have h2 : tags \ (current ∪ tags) = ∅ :=
      Finset.sdiff_eq_empty_iff_subset.mpr Finset.subset_union_right
    simp [metaAdd, h2]

/-- C8: in the five steps that share the `simpleOp` shape (stage,
archive, annotate, unstage, complete), a body exception leaves the
committed state unchanged and propagates unconverted; in the analyse
step, `STARTED` is committed before the body runs, so an `AnalysisError`
moves the job `STARTED → FAILED` and is re-raised, while an exception the
step does not recognise propagates unconverted and leaves the job in the
committed `STARTED` state. -/
theorem C8_step_error_semantics :
    (∀ (pre post : WorkState) (e : PyErr) (s : WorkState),
      simpleOp pre post (.error e) s = (s, if s = pre then some e else none)) ∧
    (∀ e : PyErr,
      analyseOp (.error e) .STAGED =
        (if e = .analysisError then .FAILED else .STARTED, some e)) := by
  constructor
  · intro pre post e s
    by_cases h : s = pre <;> simp [simpleOp, h]
  · intro e
    by_cases h : e = .analysisError <;>
      simp [analyseOp, updateState, legalTransition, h]

/-- C1 counterexample: a `PENDING` job whose input collection is
incomplete does not stay `PENDING` — the stage step skips the download
but still commits the `PENDING → STAGED` transition. -/
theorem C1_counterexample_incomplete_input_still_staged :
    stageInputData .PENDING ⟨false, false⟩ = ((.STAGED, ⟨false, false⟩), none) ∧
    WorkState.STAGED ≠ .PENDING := by
  exact ⟨rfl, by decide⟩

/-- C1 (amended): for a `PENDING` job, the stage step downloads the data
exactly when the input collection is complete, but commits
`PENDING → STAGED` in either case; for a job in any other state the call
is a silent no-op, so a later call made after the completion marker
appears neither downloads nor transitions. -/
theorem C1_stage_always_transitions (w : StageWorld) :
    stageInputData .PENDING w =
      ((.STAGED, ⟨w.inputComplete, w.inputComplete || w.downloaded⟩), none) ∧
    (∀ s, s ≠ .PENDING → stageInputData s w = ((s, w), none)) := by
  constructor
  · cases w with
    | mk c d => cases c <;> simp [stageInputData, updateState, legalTransition]
  · intro s hs
    simp [stageInputData, hs]

/-- C1 witness: a second stage call on the now-`STAGED` job, made after
the marker has appeared (`inputComplete = true`), is a no-op: nothing is
downloaded. -/
theorem C1_stage_always_transitions_witness :
    stageInputData .STAGED ⟨true, false⟩ = ((.STAGED, ⟨true, false⟩), none) :=
  (C1_stage_always_transitions ⟨true, false⟩).2 .STAGED (by decide)

/-- C2 (code bug): cancelling a `STAGED` job leaves its scratch directory
in place — the `is_staged` branch of `cancel_analysis` calls the
decorated `unstage_input_data`, whose `unstage_op` guard requires
`ANNOTATED`, so the deletion body never runs — while cancelling an
`ANNOTATED` job does delete the scratch directory; both end `CANCELLED`. -/
theorem C2_cancel_from_staged_keeps_scratch :
    cancelAnalysis .STAGED true = ((.CANCELLED, true), none) ∧
    cancelAnalysis .ANNOTATED true = ((.CANCELLED, false), none) := by
  exact ⟨rfl, rfl⟩

/-- C4 counterexample: requesting a transition to `CANCELLED` on a job
whose current state is `COMPLETED` (or already `CANCELLED`) does not
fail — `WorkInstance.cancelled` performs no validation. -/
theorem C4_counterexample_cancel_terminal_succeeds :
    cancelled (some .COMPLETED_STATE) = .ok .CANCELLED_STATE ∧
    cancelled (some .CANCELLED_STATE) = .ok .CANCELLED_STATE := by
  exact ⟨rfl, rfl⟩

/-- C4 (amended): every state-changing method of `WorkInstance` except
`cancelled` validates the move against its own set of permitted
predecessor states and raises `StateTransitionError` for any other move;
`cancelled` performs no validation and succeeds from every state,
including `COMPLETED` and `CANCELLED` (and `completed` also accepts an
empty state history). -/
theorem C4_transition_guards :
    (∀ c, (staged c).isOk = true ↔ c = some .PENDING_STATE) ∧
    (∀ c, (failed_staging c).isOk = true ↔ c = some .PENDING_STATE) ∧
    (∀ c, (started c).isOk = true ↔ c = some .STAGED_STATE) ∧
    (∀ c, (succeeded c).isOk = true ↔ c = some .STARTED_STATE) ∧
    (∀ c, (failed c).isOk = true ↔ c = some .STARTED_STATE) ∧
    (∀ c, (unstaged c).isOk = true ↔
      (c = some .STAGED_STATE ∨ c = some .FAILED_STAGING_STATE ∨
       c = some .SUCCEEDED_STATE ∨ c = some .FAILED_STATE ∨
       c = some .FAILED_UNSTAGING_STATE)) ∧
    (∀ c, (failed_unstaging c).isOk = true ↔
      (c = some .STAGED_STATE ∨ c = some .SUCCEEDED_STATE ∨
       c = some .FAILED_STATE)) ∧
    (∀ c, (completed c).isOk = true ↔ (c = none ∨ c = some .UNSTAGED_STATE)) ∧
    (∀ c, (pending c).isOk = true ↔ c = none) ∧
    (∀ c, cancelled c = .ok .CANCELLED_STATE) := by
  refine ⟨by decide, by decide, by decide, by decide, by decide, by decide,
    by decide, by decide, by decide, fun c => rfl⟩

/-- C3 counterexample: with `ONTRunData`'s end states
`[CANCELLED, COMPLETED]`, an input path whose only job is `FAILED` makes
`add_work` return the no-op result `None` and leave the store unchanged —
no new `PENDING` job is inserted. -/
theorem C3_counterexample_failed_blocks_insert :
    addWork [.CANCELLED, .COMPLETED] ['t'] [⟨['p'], ['t'], .FAILED⟩] ['p'] =
      .ok (none, [⟨['p'], ['t'], .FAILED⟩]) := by
  rfl

/-- C3 (amended): when every job for the pair is `FAILED` and at least
one exists, `add_work` with end states `[CANCELLED, COMPLETED]` neither
raises (`FAILED` is not an end state) nor inserts: `FAILED` is also
outside the excluded set `end_states ∪ {CANCELLED, COMPLETED}` of the
incomplete-work query, so the `FAILED` job counts as incomplete work and
the call returns the no-op result `None` with the store unchanged. -/
theorem C3_add_work_failed_is_noop (wt p : PyStr) (store : Store)
    (hex : ∃ j ∈ store, j.input_path = p ∧ j.work_type = wt)
    (hall : ∀ j ∈ store, j.input_path = p → j.work_type = wt →
      j.state = .FAILED) :
    addWork [.CANCELLED, .COMPLETED] wt store p = .ok (none, store) := by
  have hended : (findWork store wt p [.CANCELLED, .COMPLETED] []).isEmpty = true := by
    rw [List.isEmpty_iff, findWork, List.filter_eq_nil_iff]
    intro j hj
    simp only [decide_eq_true_eq]
    rintro ⟨h1, h2, h3, -⟩
    have hst := hall j hj h1 h2
    rcases h3 with h3 | h3
    · cases h3
    · rw [hst] at h3; simp at h3
  have hinc : (findWork store wt p []
      ([.CANCELLED, .COMPLETED] ++ [.CANCELLED, .COMPLETED])).isEmpty = false := by
    rw [List.isEmpty_eq_false]
    obtain ⟨j, hj, hjp, hjw⟩ := hex
    have hst := hall j hj hjp hjw
    intro hnil
    have hmem : j ∈ findWork store wt p []
        ([.CANCELLED, .COMPLETED] ++ [.CANCELLED, .COMPLETED]) := by
      rw [findWork, List.mem_filter]
      refine ⟨hj, ?_⟩
      simp only [decide_eq_true_eq]
      exact ⟨hjp, hjw, Or.inl rfl, Or.inr (by rw [hst]; decide)⟩
    rw [hnil] at hmem
    cases hmem
  simp only [addWork, hended, hinc]
  rfl

/-- C3 witness: the amended statement at the concrete one-`FAILED`-job
store of the counterexample. -/
theorem C3_add_work_failed_is_noop_witness :
    addWork [.CANCELLED, .COMPLETED] ['t'] [⟨['p'], ['t'], .FAILED⟩] ['p'] =
      .ok (none, [⟨['p'], ['t'], .FAILED⟩]) :=
  C3_add_work_failed_is_noop ['t'] ['p'] [⟨['p'], ['t'], .FAILED⟩]
    (by decide) (by decide)

/-- C9 (code bug): the `State` dictionary seeded by `initialize_states`
in the `schema.py` present in the tree has ten members, but they are
named by the config constants `PENDING_STATE` … `COMPLETED_STATE` —
including `FAILED_STAGING_STATE` and `FAILED_UNSTAGING_STATE` and
lacking any `ARCHIVED` or `ANNOTATED` state — each with a non-empty
human description; the `WorkState` enumeration of `enums.py`, which the
current engine and its tests use, is instead exactly the ten members the
specification lists. -/
theorem C9_initialize_states_contents :
    initializeStates.map Prod.fst =
      [.PENDING_STATE, .STAGED_STATE, .FAILED_STAGING_STATE, .STARTED_STATE,
       .SUCCEEDED_STATE, .FAILED_STATE, .CANCELLED_STATE, .UNSTAGED_STATE,
       .FAILED_UNSTAGING_STATE, .COMPLETED_STATE] ∧
    (initializeStates.map Prod.fst).Nodup ∧
    initializeStates.length = 10 ∧
    initializeStates.map Prod.snd =
      ["Pending any action", "The work data are staged", "Staging has failed",
       "Work started", "Work was done successfully", "Work has failed",
       "Work was cancelled", "The work data were unstaged",
       "Unstaging has failed", "All actions are complete"] ∧
    workStateMembers.Nodup ∧ workStateMembers.length = 10 ∧
    (∀ s : WorkState, s ∈ workStateMembers) := by
  refine ⟨rfl, by decide, rfl, rfl, by decide, rfl, by decide⟩

/-! ### Broker idempotence (C5): helper lemmas -/

/-- When a path is `pathOK`, `add_work` is a no-op returning `None`. -/
theorem addWork_of_pathOK {es : List WorkState} {wt : PyStr} {store : Store}
    {p : PyStr} (h : pathOK es wt store p) :
    addWork es wt store p = .ok (none, store) := by
  obtain ⟨h1, h2⟩ := h
  simp only [addWork, h1, h2]
  rfl

/-- A successful `add_work` call only ever appends `PENDING` jobs to the
store. -/
theorem addWork_ok_extension {es : List WorkState} {wt : PyStr} {store : Store}
    {p : PyStr} {r : Option Job} {store' : Store}
    (h : addWork es wt store p = .ok (r, store')) :
    ∃ ext, store' = store ++ ext ∧ ∀ j ∈ ext, j.state = .PENDING := by
  by_cases h1 : (findWork store wt p es []).isEmpty = true
  · by_cases h2 : (findWork store wt p []
        (es ++ [.CANCELLED, .COMPLETED])).isEmpty = true
    · simp only [addWork, h1, h2, if_pos rfl] at h
      refine ⟨[⟨p, wt, .PENDING⟩], ?_, ?_⟩
      · injection h with h'
        injection h' with _ hs
        exact hs.symm
      · intro j hj
        simp only [List.mem_singleton] at hj
        rw [hj]
    · simp only [addWork, h1, h2, if_pos rfl, if_neg h2] at h
      refine ⟨[], ?_, by intro j hj; cases hj⟩
      injection h with h'
      injection h' with _ hs
      rw [← hs, List.append_nil]
  · simp only [addWork, h1] at h
    cases h

/-- `pathOK` survives appending `PENDING` jobs, provided the end-state
set is non-empty and does not contain `PENDING`. -/
theorem pathOK_append {es : List WorkState} {wt : PyStr} {store : Store}
    {p : PyStr} (hne : es ≠ []) (hp : WorkState.PENDING ∉ es)
    (h : pathOK es wt store p) (ext : List Job)
    (hext : ∀ j ∈ ext, j.state = .PENDING) :
    pathOK es wt (store ++ ext) p := by
  obtain ⟨h1, h2⟩ := h
  constructor
  · rw [List.isEmpty_iff] at h1 ⊢
    rw [findWork, List.filter_append]
    rw [findWork] at h1
    rw [h1, List.nil_append, List.filter_eq_nil_iff]
    intro j hj
    simp only [decide_eq_true_eq]
    rintro ⟨-, -, h3, -⟩
    rcases h3 with h3 | h3
    · exact hne h3
    · rw [hext j hj] at h3
      exact hp h3
  · rw [List.isEmpty_eq_false] at h2 ⊢
    rw [findWork, List.filter_append]
    rw [findWork] at h2
    exact List.append_ne_nil_of_left_ne_nil h2 _

/-- After any successful `add_work` call, its path is `pathOK` in the
resulting store. -/
theorem addWork_ok_pathOK {es : List WorkState} {wt : PyStr} {store : Store}
    {p : PyStr} {r : Option Job} {store' : Store}
    (hne : es ≠ []) (hp : WorkState.PENDING ∉ es)
    (h : addWork es wt store p = .ok (r, store')) :
    pathOK es wt store' p := by
  by_cases h1 : (findWork store wt p es []).isEmpty = true
  · by_cases h2 : (findWork store wt p []
        (es ++ [.CANCELLED, .COMPLETED])).isEmpty = true
    · simp only [addWork, h1, h2, if_pos rfl] at h
      injection h with h'
      injection h' with _ hs
      rw [← hs]
      have hext : ∀ j ∈ [(⟨p, wt, .PENDING⟩ : Job)], j.state = .PENDING := by
        intro j hj
        simp only [List.mem_singleton] at hj
        rw [hj]
      refine ⟨?_, ?_⟩
      · rw [List.isEmpty_iff, findWork, List.filter_append]
        rw [List.isEmpty_iff, findWork] at h1
        rw [h1, List.nil_append, List.filter_eq_nil_iff]
        intro j hj
        simp only [decide_eq_true_eq]
        rintro ⟨-, -, h3, -⟩
        rcases h3 with h3 | h3
        · exact hne h3
        · rw [hext j hj] at h3
          exact hp h3
      · rw [List.isEmpty_eq_false]
        intro hnil
        have hmem : (⟨p, wt, .PENDING⟩ : Job) ∈ findWork
            (store ++ [⟨p, wt, .PENDING⟩]) wt p []
            (es ++ [.CANCELLED, .COMPLETED]) := by
          rw [findWork, List.mem_filter]
          refine ⟨List.mem_append_right _ (List.mem_singleton_self _), ?_⟩
          simp only [decide_eq_true_eq]
          refine ⟨rfl, rfl, Or.inl rfl, Or.inr ?_⟩
          intro hmem
          rcases List.mem_append.mp hmem with hmem | hmem
          · exact hp hmem
          · simp at hmem
        rw [hnil] at hmem
        cases hmem
    · simp only [addWork, h1, h2, if_pos rfl, if_neg h2] at h
      injection h with h'
      injection h' with _ hs
      rw [← hs]
      exact ⟨h1, by rwa [Bool.not_eq_true] at h2⟩
  · simp only [addWork, h1] at h
    cases h

/-- After a successful `__add_work_for_run` pass, the store has only
grown by `PENDING` jobs and every path of the pass is `pathOK`. -/
theorem addWorkForRun_ok_inv {es : List WorkState} {wt : PyStr}
    (hne : es ≠ []) (hp : WorkState.PENDING ∉ es) :
    ∀ (ps : List PyStr) (store : Store) (n : ℕ) (store' : Store),
    addWorkForRun es wt store ps = .ok (n, store') →
    (∃ ext, store' = store ++ ext ∧ ∀ j ∈ ext, j.state = .PENDING) ∧
    ∀ p ∈ ps, pathOK es wt store' p := by
  intro ps
  induction ps with
  | nil =>
    intro store n store' h
    injection h with h'
    injection h' with _ hs
    exact ⟨⟨[], by rw [← hs, List.append_nil], by intro j hj; cases hj⟩,
      by intro p hp'; cases hp'⟩
  | cons p ps ih =>
    intro store n store' h
    simp only [addWorkForRun] at h
    cases haw : addWork es wt store p with
    | error e => rw [haw] at h; cases h
    | ok v =>
      obtain ⟨r, store₁⟩ := v
      rw [haw] at h
      dsimp only at h
      cases hrec : addWorkForRun es wt store₁ ps with
      | error e => rw [hrec] at h; cases h
      | ok w =>
        obtain ⟨m, store₂⟩ := w
        rw [hrec] at h
        dsimp only at h
        injection h with h'
        injection h' with _ hs
        subst hs
        obtain ⟨⟨ext₂, hext₂, hpend₂⟩, hps⟩ := ih store₁ m store₂ hrec
        obtain ⟨ext₁, hext₁, hpend₁⟩ := addWork_ok_extension haw
        refine ⟨⟨ext₁ ++ ext₂, ?_, ?_⟩, ?_⟩
        · rw [hext₂, hext₁, List.append_assoc]
        · intro j hj
          rcases List.mem_append.mp hj with hj | hj
          · exact hpend₁ j hj
          · exact hpend₂ j hj
        · intro q hq
          rcases List.mem_cons.mp hq with hq | hq
          · subst hq
            have hq₁ := addWork_ok_pathOK hne hp haw
            rw [hext₂]
            exact pathOK_append hne hp hq₁ ext₂ hpend₂
          · exact hps q hq

/-- After a successful broker pass, the store has only grown by `PENDING`
jobs and every path found for any tuple is `pathOK`. -/
theorem requestWork_ok_inv {es : List WorkState} {wt : PyStr}
    (hne : es ≠ []) (hp : WorkState.PENDING ∉ es) :
    ∀ (L : List (List PyStr)) (store : Store) (n : ℕ) (store' : Store),
    requestWork es wt store L = .ok (n, store') →
    (∃ ext, store' = store ++ ext ∧ ∀ j ∈ ext, j.state = .PENDING) ∧
    ∀ ps ∈ L, ∀ p ∈ ps, pathOK es wt store' p := by
  intro L
  induction L with
  | nil =>
    intro store n store' h
    injection h with h'
    injection h' with _ hs
    exact ⟨⟨[], by rw [← hs, List.append_nil], by intro j hj; cases hj⟩,
      by intro ps hps; cases hps⟩
  | cons ps L ih =>
    intro store n store' h
    simp only [requestWork] at h
    cases hrun : addWorkForRun es wt store ps with
    | error e => rw [hrun] at h; cases h
    | ok v =>
      obtain ⟨m, store₁⟩ := v
      rw [hrun] at h
      dsimp only at h
      cases hrec : requestWork es wt store₁ L with
      | error e => rw [hrec] at h; cases h
      | ok w =>
        obtain ⟨k, store₂⟩ := w
        rw [hrec] at h
        dsimp only at h
        injection h with h'
        injection h' with _ hs
        subst hs
        obtain ⟨⟨ext₂, hext₂, hpend₂⟩, hL⟩ := ih store₁ k store₂ hrec
        obtain ⟨⟨ext₁, hext₁, hpend₁⟩, hps⟩ :=
          addWorkForRun_ok_inv hne hp ps store m store₁ hrun
        refine ⟨⟨ext₁ ++ ext₂, ?_, ?_⟩, ?_⟩
        · rw [hext₂, hext₁, List.append_assoc]
        · intro j hj
          rcases List.mem_append.mp hj with hj | hj
          · exact hpend₁ j hj
          · exact hpend₂ j hj
        · intro qs hqs q hq
          rcases List.mem_cons.mp hqs with hqs | hqs
          · subst hqs
            rw [hext₂]
            exact pathOK_append hne hp (hps q hq) ext₂ hpend₂
          · exact hL qs hqs q hq

/-- A `__add_work_for_run` pass over paths that are all `pathOK` inserts
nothing and leaves the store unchanged. -/
theorem addWorkForRun_noop {es : List WorkState} {wt : PyStr} {store : Store}
    {ps : List PyStr} (h : ∀ p ∈ ps, pathOK es wt store p) :
    addWorkForRun es wt store ps = .ok (0, store) := by
  induction ps with
  | nil => rfl
  | cons p ps ih =>
    simp only [addWorkForRun]
    rw [addWork_of_pathOK (h p (List.mem_cons_self p ps))]
    dsimp only
    rw [ih (fun q hq => h q (List.mem_cons_of_mem p hq))]
    rfl

/-- A broker pass over tuples whose paths are all `pathOK` inserts
nothing and leaves the store unchanged. -/
theorem requestWork_noop {es : List WorkState} {wt : PyStr} {store : Store}
    {L : List (List PyStr)} (h : ∀ ps ∈ L, ∀ p ∈ ps, pathOK es wt store p) :
    requestWork es wt store L = .ok (0, store) := by
  induction L with
  | nil => rfl
  | cons ps L ih =>
    simp only [requestWork]
    rw [addWorkForRun_noop (h ps (List.mem_cons_self ps L))]
    dsimp only
    rw [ih (fun qs hqs q hq => h qs (List.mem_cons_of_mem ps hqs) q hq)]

/-- C5: over fixed warehouse and archive contents (each tuple resolving
to a fixed path list `L`), a successful broker pass leaves every touched
path with an incomplete (non-end-state) job, so an immediately repeated
pass inserts zero jobs, returns 0 and leaves the job store unchanged.
The hypotheses hold for both registered bots: the end-state set is
non-empty and does not contain `PENDING`. -/
theorem C5_broker_idempotent (es : List WorkState) (wt : PyStr)
    (L : List (List PyStr)) (s₀ s₁ : Store) (n : ℕ)
    (hne : es ≠ []) (hp : WorkState.PENDING ∉ es)
    (h : requestWork es wt s₀ L = .ok (n, s₁)) :
    requestWork es wt s₁ L = .ok (0, s₁) :=
  requestWork_noop (requestWork_ok_inv hne hp L s₀ n s₁ h).2

/-- C5 witness: with `ONTRunData`'s end states, one tuple resolving to
one path and an empty store, the first pass inserts one `PENDING` job and
the second pass, applied to the resulting store, returns 0 and changes
nothing. -/
theorem C5_broker_idempotent_witness :
    requestWork [.CANCELLED, .COMPLETED] ['t'] [⟨['p'], ['t'], .PENDING⟩]
      [[['p']]] = .ok (0, [⟨['p'], ['t'], .PENDING⟩]) :=
  C5_broker_idempotent [.CANCELLED, .COMPLETED] ['t'] [[['p']]] [] _ 1
    (by decide) (by decide) (by rfl)

/-! ### Tag ordering (C6): helper lemmas -/

/-- A shared prefix cancels on the left of lexicographic comparison. -/
theorem lex_append_left_iff (pre u v : PyStr) : pre ++ u < pre ++ v ↔ u < v := by
  induction pre with
  | nil => exact Iff.rfl
  | cons a t ih => exact Iff.trans List.Lex.cons_iff ih

/-- A present key never exceeds itself. -/
theorem optKey_none_not_lt_some (s : PyStr) : ¬ optKey none < optKey (some s) := by
  simp [optKey, Prod.Lex.lt_iff]

/-- A present value keys strictly below an absent one. -/
theorem optKey_some_lt_none (s : PyStr) : optKey (some s) < optKey none := by
  simp [optKey, Prod.Lex.lt_iff]

/-- Two present values key by their lexicographic order. -/
theorem optKey_some_lt_some (s t : PyStr) :
    optKey (some s) < optKey (some t) ↔ s < t := by
  simp [optKey, Prod.Lex.lt_iff]

/-- The optional-string key is injective. -/
theorem optKey_eq_iff (a b : Option PyStr) : optKey a = optKey b ↔ a = b := by
  cases a <;> cases b <;> simp [optKey]

/-- The units/namespace branch of `AVU.__lt__` agrees with the
present-before-absent key order on optional strings. -/
theorem avuLt_units_iff (ux uy : Option PyStr) :
    (match ux, uy with
      | some _, none => true
      | none, some _ => false
      | none, none => false
      | some a, some b => decide (a < b)) = true ↔ optKey ux < optKey uy := by
  cases ux <;> cases uy <;>
    simp [optKey, Prod.Lex.lt_iff]

/-- The attribute/value/units block of `AVU.__lt__`, on two AVUs sharing
one namespace, agrees with the lexicographic key over the bare attribute,
the value and the units. -/
theorem avuLtTail_iff (ns : Option PyStr) (ax vx : PyStr) (ux : Option PyStr)
    (ay vy : PyStr) (uy : Option PyStr) :
    avuLtTail ⟨ns, ax, vx, ux⟩ ⟨ns, ay, vy, uy⟩ = true ↔
      toLex ((ax : PyStr), toLex ((vx : PyStr), optKey ux)) <
        toLex ((ay : PyStr), toLex ((vy : PyStr), optKey uy)) := by
  have hpre : ∀ n (z : PyStr), n ++ (':' :: z) = (n ++ [':']) ++ z := by
    intro n z
    simp
  have hlt : (AVU.attrFull ⟨ns, ax, vx, ux⟩ < AVU.attrFull ⟨ns, ay, vy, uy⟩)
      ↔ ax < ay := by
    cases ns with
    | none => exact Iff.rfl
    | some n =>
      show n ++ (':' :: ax) < n ++ (':' :: ay) ↔ _
      rw [hpre n ax, hpre n ay, lex_append_left_iff]
  have heq : (AVU.attrFull ⟨ns, ax, vx, ux⟩ = AVU.attrFull ⟨ns, ay, vy, uy⟩)
      ↔ ax = ay := by
    cases ns with
    | none => exact Iff.rfl
    | some n =>
      show n ++ (':' :: ax) = n ++ (':' :: ay) ↔ _
      rw [hpre n ax, hpre n ay, List.append_right_inj]
  rw [Prod.Lex.lt_iff, Prod.Lex.lt_iff]
  simp only [toLex_inj]
  simp only [avuLtTail]
  split_ifs with h1 h2 h3 h4
  · simp only [true_iff]
    exact Or.inl (hlt.mp h1)
  · simp only [true_iff]
    exact Or.inr ⟨heq.mp h2, Or.inl h3⟩
  · rw [avuLt_units_iff]
    constructor
    · intro hu
      exact Or.inr ⟨heq.mp h2, Or.inr ⟨h4, hu⟩⟩
    · rintro (hlt' | ⟨-, hv | ⟨-, hu⟩⟩)
      · exact absurd (hlt.mpr hlt') h1
      · exact absurd hv h3
      · exact hu
  · simp only [false_iff]
    rintro (hlt' | ⟨-, hv | ⟨hv, -⟩⟩)
    · exact h1 (hlt.mpr hlt')
    · exact h3 hv
    · exact h4 hv
  · simp only [false_iff]
    rintro (hlt' | ⟨hv, -⟩)
    · exact h1 (hlt.mpr hlt')
    · exact h2 (heq.mpr hv)

/-- Unfolding of `avuLt` when neither tag has a namespace. -/
theorem avuLt_none_none (ax vx ay vy : PyStr) (ux uy : Option PyStr) :
    avuLt ⟨none, ax, vx, ux⟩ ⟨none, ay, vy, uy⟩ =
      avuLtTail ⟨none, ax, vx, ux⟩ ⟨none, ay, vy, uy⟩ := rfl

/-- Unfolding of `avuLt` when only the left tag has a namespace. -/
theorem avuLt_some_none (n ax vx ay vy : PyStr) (ux uy : Option PyStr) :
    avuLt ⟨some n, ax, vx, ux⟩ ⟨none, ay, vy, uy⟩ = true := rfl

/-- Unfolding of `avuLt` when only the right tag has a namespace. -/
theorem avuLt_none_some (n ax vx ay vy : PyStr) (ux uy : Option PyStr) :
    avuLt ⟨none, ax, vx, ux⟩ ⟨some n, ay, vy, uy⟩ = false := rfl

/-- Unfolding of `avuLt` when both tags have namespaces. -/
theorem avuLt_some_some (nx ny ax vx ay vy : PyStr) (ux uy : Option PyStr) :
    avuLt ⟨some nx, ax, vx, ux⟩ ⟨some ny, ay, vy, uy⟩ =
      if nx < ny then true
      else if nx = ny then
        avuLtTail ⟨some nx, ax, vx, ux⟩ ⟨some ny, ay, vy, uy⟩
      else false := rfl

/-- `AVU.__lt__` is exactly the strict order of the specification-level
sort key. -/
theorem avuLt_iff_specKey (x y : AVU) :
    avuLt x y = true ↔ specKey x < specKey y := by
  obtain ⟨nx, ax, vx, ux⟩ := x
  obtain ⟨ny, ay, vy, uy⟩ := y
  simp only [specKey]
  rw [Prod.Lex.lt_iff]
  simp only [toLex_inj]
  cases nx with
  | none =>
    cases ny with
    | none =>
      rw [avuLt_none_none, avuLtTail_iff]
      constructor
      · intro h
        exact Or.inr ⟨rfl, h⟩
      · rintro (h | ⟨-, h⟩)
        · exact absurd h (lt_irrefl _)
        · exact h
    | some n =>
      rw [avuLt_none_some]
      constructor
      · intro h
        exact Bool.noConfusion h
      · rintro (h | ⟨h, -⟩)
        · exact absurd h (optKey_none_not_lt_some n)
        · exact Option.noConfusion ((optKey_eq_iff none (some n)).mp h)
  | some nx' =>
    cases ny with
    | none =>
      rw [avuLt_some_none]
      exact ⟨fun _ => Or.inl (optKey_some_lt_none nx'), fun _ => rfl⟩
    | some ny' =>
      rw [avuLt_some_some]
      rcases lt_trichotomy nx' ny' with h | h | h
      · rw [if_pos h]
        exact ⟨fun _ => Or.inl ((optKey_some_lt_some nx' ny').mpr h),
          fun _ => rfl⟩
      · subst h
        rw [if_neg (lt_irrefl nx'), if_pos rfl, avuLtTail_iff]
        constructor
        · intro hh
          exact Or.inr ⟨rfl, hh⟩
        · rintro (hh | ⟨-, hh⟩)
          · exact absurd hh (lt_irrefl _)
          · exact hh
      · have hne : ¬ nx' < ny' := not_lt.mpr (le_of_lt h)
        have hneq : ¬ nx' = ny' := ne_of_gt h
        rw [if_neg hne, if_neg hneq]
        constructor
        · intro hh
          exact Bool.noConfusion hh
        · rintro (hh | ⟨hh, -⟩)
          · exact absurd ((optKey_some_lt_some nx' ny').mp hh) hne
          · exact absurd (Option.some.inj ((optKey_eq_iff _ _).mp hh)) hneq

/-- `a` may stably precede `b` in a Python sort exactly when the key of
`a` is at most the key of `b`. -/
theorem notAvuLt_iff (x y : AVU) :
    (!avuLt x y) = true ↔ specKey y ≤ specKey x := by
  rw [Bool.not_eq_true', ← not_lt]
  constructor
  · intro h hk
    rw [← avuLt_iff_specKey] at hk
    rw [h] at hk
    cases hk
  · intro h
    cases hxy : avuLt x y with
    | false => rfl
    | true => exact absurd ((avuLt_iff_specKey x y).mp hxy) h

/-- C6 counterexample: nulls do not sort before non-nulls — for two tags
equal up to the optional component, the code (and the repository's own
tests) place the tag with units `"mm"` before the tag with no units, and
the tag with namespace `"n"` before the tag with no namespace, in both
cases the opposite of the claimed null-first order. -/
theorem C6_counterexample_nonnull_sorts_first :
    avuLt ⟨none, ['x'], ['1'], some ['m', 'm']⟩ ⟨none, ['x'], ['1'], none⟩ = true ∧
    avuLt ⟨none, ['x'], ['1'], none⟩ ⟨none, ['x'], ['1'], some ['m', 'm']⟩ = false ∧
    avuLt ⟨some ['n'], ['x'], ['1'], none⟩ ⟨none, ['x'], ['1'], none⟩ = true ∧
    avuLt ⟨none, ['x'], ['1'], none⟩ ⟨some ['n'], ['x'], ['1'], none⟩ = false := by
  refine ⟨rfl, ?_, rfl, rfl⟩
  rfl

/-- C6 (amended): the tag order is lexical by namespace, then attribute,
then value, then units, where at each optional component a non-null
(present) value sorts before a null (absent) one; and sorting a tag list
round-trips (re-sorting a sorted list is the identity). -/
theorem C6_tag_order_lexical_and_roundtrip :
    (∀ x y : AVU, avuLt x y = true ↔ specKey x < specKey y) ∧
    (∀ l : List AVU, sortAVUs (sortAVUs l) = sortAVUs l) := by
  refine ⟨avuLt_iff_specKey, ?_⟩
  intro l
  apply List.mergeSort_of_sorted
  apply List.sorted_mergeSort
  · intro a b c hab hbc
    exact (notAvuLt_iff c a).mpr
      (le_trans ((notAvuLt_iff b a).mp hab) ((notAvuLt_iff c b).mp hbc))
  · intro a b
    rw [Bool.or_eq_true]
    rcases le_total (specKey a) (specKey b) with h | h
    · exact Or.inl ((notAvuLt_iff b a).mpr h)
    · exact Or.inr ((notAvuLt_iff a b).mpr h)
